import Mathlib

/-!
Verification of the page-flow / layout engine of Basic-10's documentation
generator (src/generate_pdf_docs.py).

The generator is the class Basic10Manual(FPDF) together with the table loops of
create_documentation.  The layout behaviour it relies on comes from the FPDF
base class (pyfpdf, `from fpdf import FPDF`), so the embedding models the FPDF
primitives the source uses — cell, ln, set_x/set_y, set_font, set_text_color,
set_fill_color, multi_cell, add_page with its header/footer hooks and the
automatic page break — and on top of them the renderer methods of
Basic10Manual, translated line by line from the source.

Geometry is the default FPDF A4/mm configuration used by the source
(`super().__init__()` and `set_auto_page_break(auto=True, margin=20)`):
page 210 x 297 mm, scale k = 72/25.4, default margins 28.35/k = 10.00125 mm,
bottom auto-break margin 20 mm.  Coordinates are exact rationals.

Drawing is modelled as a trace of cell events; an event records the page it is
placed on, its rectangle, its text, the font/colors in effect, whether a
background fill rectangle is painted (and in which color), its alignment and
border flag.  Word wrapping of paragraphs (FPDF multi_cell) depends on font
metrics, which the engine delegates to its text-measurement collaborator; it
is therefore a parameter `wrap` of the paragraph renderers.
-/

namespace Basic10

/-- An RGB color triple as passed to set_text_color / set_fill_color. -/
structure RGB where
  r : ℕ
  g : ℕ
  b : ℕ
deriving DecidableEq, Repr

/-- Current font selection: family, style flags string ('B', 'I', ...), size in points. -/
structure Font where
  family : String
  style : String
  size : ℚ
deriving DecidableEq, Repr

/-- The mutable FPDF state the source manipulates: current page number,
cursor (x, y), current font, text color, fill color, and lasth (the height of
the last printed cell, used by ln() without an argument). -/
structure PState where
  page : ℕ
  x : ℚ
  y : ℚ
  font : Font
  textColor : RGB
  fillColor : RGB
  lasth : ℚ
deriving DecidableEq, Repr

/-- FPDF scale factor for unit='mm': k = 72 / 25.4. -/
def kMM : ℚ := 72 / (254 / 10)

/-- A4 page width in mm. -/
def pageW : ℚ := 210

/-- A4 page height in mm. -/
def pageH : ℚ := 297

/-- FPDF's default page margin: 28.35 / k = 10.00125 mm (about 1 cm). -/
def defMargin : ℚ := (2835 / 100) / kMM

def lMargin : ℚ := defMargin
def tMargin : ℚ := defMargin
def rMargin : ℚ := defMargin

/-- Bottom margin installed by set_auto_page_break(auto=True, margin=20). -/
def bMargin : ℚ := 20

/-- FPDF page_break_trigger = h - b_margin. -/
def pageBreakTrigger : ℚ := pageH - bMargin

/-- One drawing event: a cell placed on a page.  `fill = some c` records that a
background rectangle is painted in color c (FPDF cell with fill=True);
`fill = none` means no background rectangle. -/
structure Ev where
  page : ℕ
  x : ℚ
  y : ℚ
  w : ℚ
  h : ℚ
  txt : String
  font : Font
  textColor : RGB
  fill : Option RGB
  align : String
  border : Bool
deriving DecidableEq, Repr

def setFont (s : PState) (fam sty : String) (sz : ℚ) : PState :=
  { s with font := ⟨fam, sty, sz⟩ }

def setTextColor (s : PState) (r g b : ℕ) : PState :=
  { s with textColor := ⟨r, g, b⟩ }

def setFillColor (s : PState) (r g b : ℕ) : PState :=
  { s with fillColor := ⟨r, g, b⟩ }

/-- FPDF set_x: negative values position from the right edge. -/
def setX (s : PState) (x : ℚ) : PState :=
  { s with x := if 0 ≤ x then x else pageW + x }

/-- FPDF set_y: sets y (negative values position from the bottom edge) and
resets x to the left margin. -/
def setY (s : PState) (y : ℚ) : PState :=
  { s with x := lMargin, y := if 0 ≤ y then y else pageH + y }

/-- FPDF ln: x back to the left margin, y advances by h (by lasth when h is
omitted).  FPDF's ln performs no page-break test. -/
def lnBy (s : PState) (h : Option ℚ) : PState :=
  { s with x := lMargin, y := s.y + h.getD s.lasth }

/-- The draw-and-advance part of FPDF.cell: resolve w=0 to the distance from
the current x to the right margin, emit the cell event, record lasth, then
advance the cursor (ln=0: x += w; ln=1: next line, x to left margin;
ln=2: below, x unchanged).  The automatic page-break test is in `cell`. -/
def cellDraw (s : PState) (w h : ℚ) (txt : String) (border : Bool) (ln : ℕ)
    (align : String) (fill : Bool) : PState × List Ev :=
  let wr := if w = 0 then pageW - rMargin - s.x else w
  let ev : Ev := ⟨s.page, s.x, s.y, wr, h, txt, s.font, s.textColor,
                  if fill then some s.fillColor else none, align, border⟩
  let s1 := { s with lasth := h }
  let s2 := if 0 < ln then
              { s1 with y := s1.y + h, x := if ln = 1 then lMargin else s1.x }
            else
              { s1 with x := s1.x + wr }
  (s2, [ev])

/-- Basic10Manual.footer: set_y(-15); Helvetica italic 8; gray; one centered
cell with the fixed caption.  FPDF invokes footer with in_footer set, which
disables the automatic page-break test, so the cell here is draw-only. -/
def footer (s : PState) : PState × List Ev :=
  let s := setY s (-15)
  let s := setFont s "Helvetica" "I" 8
  let s := setTextColor s 128 128 128
  cellDraw s 0 10 "Basic-10 v1.9.1 - BASIC to IC10 Compiler for Stationeers" false 0 "C" false

/-- Basic10Manual.header: nothing on page 1; otherwise Helvetica italic 9,
gray, a left-aligned title cell and a right-aligned 'Page N' cell, ln(10),
then set_x(10).  FPDF only calls header from add_page, where y is the top
margin, so the cells' page-break test (y + 10 > 277) can never fire; they are
therefore draw-only in this embedding. -/
def header (s : PState) : PState × List Ev :=
  if 1 < s.page then
    let s := setFont s "Helvetica" "I" 9
    let s := setTextColor s 128 128 128
    let p1 := cellDraw s 95 10 "Basic-10 Compiler Documentation" false 0 "L" false
    let p2 := cellDraw p1.1 95 10 ("Page " ++ toString p1.1.page) false 0 "R" false
    let s := lnBy p2.1 (some 10)
    let s := setX s 10
    (s, p1.2 ++ p2.2)
  else
    (s, [])

/-- FPDF.add_page: save the current font and colors; if a page is open, run
the footer hook on it; open the next page (cursor to the top-left margin
corner); restore the font (when one has been set) and the colors; run the
header hook; restore the font and the colors again. -/
def addPage (s : PState) : PState × List Ev :=
  let fam := s.font
  let tc := s.textColor
  let fc := s.fillColor
  let pf := if 0 < s.page then footer s else (s, [])
  let s1 := { pf.1 with page := pf.1.page + 1, x := lMargin, y := tMargin }
  let s2 := if fam.family ≠ "" then { s1 with font := fam } else s1
  let s3 := { s2 with textColor := tc, fillColor := fc }
  let ph := header s3
  let s4 := if fam.family ≠ "" then { ph.1 with font := fam } else ph.1
  let s5 := { s4 with textColor := tc, fillColor := fc }
  (s5, pf.2 ++ ph.2)

/-- The automatic page-break test of FPDF.cell: self.y + h > self.page_break_trigger. -/
def breakNeeded (s : PState) (h : ℚ) : Bool :=
  decide (pageBreakTrigger < s.y + h)

/-- FPDF.cell: if the cell would cross the bottom margin, break the page
(saving and restoring x across add_page), then draw and advance. -/
def cell (s : PState) (w h : ℚ) (txt : String) (border : Bool) (ln : ℕ)
    (align : String) (fill : Bool) : PState × List Ev :=
  let pb := if breakNeeded s h then
              let xSave := s.x
              let pa := addPage s
              ({ pa.1 with x := xSave }, pa.2)
            else
              (s, [])
  let pd := cellDraw pb.1 w h txt border ln align fill
  (pd.1, pb.2 ++ pd.2)

/-- The per-line loop of FPDF.multi_cell: each wrapped line is a cell with
ln=2 (cursor moves below, x unchanged), each subject to the page-break test. -/
def multiCellLines (w h : ℚ) (border : Bool) (align : String) (fill : Bool) :
    PState → List String → PState × List Ev
  | s, [] => (s, [])
  | s, l :: ls =>
    let p := cell s w h l border 2 align fill
    let q := multiCellLines w h border align fill p.1 ls
    (q.1, p.2 ++ q.2)

/-- FPDF.multi_cell: resolve the width, wrap the text to that width with the
current font (wrapping is delegated to the text-measurement collaborator
`wrap`), draw each line, then put x back to the left margin. -/
def multiCell (wrap : Font → ℚ → String → List String) (s : PState)
    (w h : ℚ) (txt : String) (border : Bool) (align : String) (fill : Bool) :
    PState × List Ev :=
  let wr := if w = 0 then pageW - rMargin - s.x else w
  let p := multiCellLines wr h border align fill s (wrap s.font wr txt)
  ({ p.1 with x := lMargin }, p.2)

/-- Trailing gap of Basic10Manual.chapter_title: self.ln(4). -/
def chapterTitleGap : ℚ := 4

/-- Trailing gap of Basic10Manual.section_title: self.ln(2). -/
def sectionTitleGap : ℚ := 2

/-- Trailing gap of Basic10Manual.subsection_title: self.ln(1). -/
def subsectionTitleGap : ℚ := 1

/-- Basic10Manual.chapter_title: Helvetica bold 18, blue (0,100,180), one
full-width cell of height 12 with ln=True, then ln(4). -/
def chapterTitle (s : PState) (title : String) : PState × List Ev :=
  let s := setFont s "Helvetica" "B" 18
  let s := setTextColor s 0 100 180
  let p := cell s 0 12 title false 1 "" false
  (lnBy p.1 (some chapterTitleGap), p.2)

/-- Basic10Manual.section_title: Helvetica bold 14, dark gray (50,50,50), one
full-width cell of height 10 with ln=True, then ln(2). -/
def sectionTitle (s : PState) (title : String) : PState × List Ev :=
  let s := setFont s "Helvetica" "B" 14
  let s := setTextColor s 50 50 50
  let p := cell s 0 10 title false 1 "" false
  (lnBy p.1 (some sectionTitleGap), p.2)

/-- Basic10Manual.subsection_title: Helvetica bold 11, gray (80,80,80), one
full-width cell of height 8 with ln=True, then ln(1). -/
def subsectionTitle (s : PState) (title : String) : PState × List Ev :=
  let s := setFont s "Helvetica" "B" 11
  let s := setTextColor s 80 80 80
  let p := cell s 0 8 title false 1 "" false
  (lnBy p.1 (some subsectionTitleGap), p.2)

/-- Basic10Manual.body_text: Helvetica 10, black, set_x(10),
multi_cell(0, 5, text), ln(2). -/
def bodyText (wrap : Font → ℚ → String → List String) (s : PState)
    (text : String) : PState × List Ev :=
  let s := setFont s "Helvetica" "" 10
  let s := setTextColor s 0 0 0
  let s := setX s 10
  let p := multiCell wrap s 0 5 text false "J" false
  (lnBy p.1 (some 2), p.2)

/-- Python str.isspace for the characters str.strip removes by default. -/
def pyIsSpace (c : Char) : Bool :=
  c = ' ' || c = '\t' || c = '\n' || c = '\r' || c = '\x0b' || c = '\x0c'

/-- Python str.strip() on a character list: drop whitespace from both ends. -/
def stripList (l : List Char) : List Char :=
  ((l.dropWhile pyIsSpace).reverse.dropWhile pyIsSpace).reverse

/-- Python str.strip(): remove leading and trailing whitespace. -/
def pyStrip (s : String) : String :=
  ⟨stripList s.data⟩

/-- Python str.split('\n') on a character list: cut at every newline, keeping
empty pieces; n newlines give n + 1 pieces. -/
def splitNL : List Char → List (List Char)
  | [] => [[]]
  | c :: cs =>
    let r := splitNL cs
    if c = '\n' then
      [] :: r
    else
      match r with
      | [] => [[c]]
      | l :: ls => (c :: l) :: ls

/-- Python s.split('\n') as used by code_block. -/
def pySplitNL (s : String) : List String :=
  (splitNL s.data).map fun l => ⟨l⟩

/-- The per-line loop of Basic10Manual.code_block: for each line, set_x(10)
then cell(0, 5, '  ' + line, ln=True, fill=True). -/
def codeLines : PState → List String → PState × List Ev
  | s, [] => (s, [])
  | s, l :: ls =>
    let s0 := setX s 10
    let p := cell s0 0 5 ("  " ++ l) false 1 "" true
    let q := codeLines p.1 ls
    (q.1, p.2 ++ q.2)

/-- Basic10Manual.code_block: Courier 9, light gray fill (240,240,240), black
text; lines = code.strip().split('\n'); each line drawn by the loop above;
then ln(3). -/
def codeBlock (s : PState) (code : String) : PState × List Ev :=
  let s := setFont s "Courier" "" 9
  let s := setFillColor s 240 240 240
  let s := setTextColor s 0 0 0
  let p := codeLines s (pySplitNL (pyStrip code))
  (lnBy p.1 (some 3), p.2)

/-- Basic10Manual.bullet_point: Helvetica 10, black, set_x(10),
multi_cell(0, 5, '  - ' + text). -/
def bulletPoint (wrap : Font → ℚ → String → List String) (s : PState)
    (text : String) : PState × List Ev :=
  let s := setFont s "Helvetica" "" 10
  let s := setTextColor s 0 0 0
  let s := setX s 10
  multiCell wrap s 0 5 ("  - " ++ text) false "J" false

/-- The cell loop shared by table_header and table_row:
for i, col in enumerate(cols): self.cell(widths[i], h, col, border=1,
fill=True, align).  Python raises IndexError('list index out of range') when
widths has fewer entries than cols. -/
def rowCells (h : ℚ) (align : String) :
    PState → List String → List ℚ → Except String (PState × List Ev)
  | s, [], _ => .ok (s, [])
  | _, _ :: _, [] => .error "list index out of range"
  | s, c :: cs, w :: ws =>
    let p := cell s w h c true 0 align true
    match rowCells h align p.1 cs ws with
    | .ok q => .ok (q.1, p.2 ++ q.2)
    | .error m => .error m

/-- Basic10Manual.table_header: Helvetica bold 9, blue fill (0,100,180),
white text; one bordered, filled, centered cell of height 7 per column; ln(). -/
def tableHeader (s : PState) (cols : List String) (widths : List ℚ) :
    Except String (PState × List Ev) :=
  let s := setFont s "Helvetica" "B" 9
  let s := setFillColor s 0 100 180
  let s := setTextColor s 255 255 255
  match rowCells 7 "C" s cols widths with
  | .ok p => .ok (lnBy p.1 none, p.2)
  | .error m => .error m

/-- Basic10Manual.table_row: Courier 8, black text; fill color (248,248,248)
when fill is requested and (255,255,255) otherwise; one bordered cell of
height 6 per column, each drawn with fill=True; ln(). -/
def tableRow (s : PState) (cols : List String) (widths : List ℚ)
    (fill : Bool) : Except String (PState × List Ev) :=
  let s := setFont s "Courier" "" 8
  let s := setTextColor s 0 0 0
  let s := if fill then setFillColor s 248 248 248 else setFillColor s 255 255 255
  match rowCells 6 "" s cols widths with
  | .ok p => .ok (lnBy p.1 none, p.2)
  | .error m => .error m

/-- The table-driving loop of create_documentation:
for i, row in enumerate(rows): pdf.table_row(row, widths, i % 2 == 0),
with i counted from k. -/
def renderRowsFrom (widths : List ℚ) :
    ℕ → PState → List (List String) → Except String (PState × List Ev)
  | _, s, [] => .ok (s, [])
  | k, s, r :: rs =>
    match tableRow s r widths (k % 2 == 0) with
    | .ok p =>
      match renderRowsFrom widths (k + 1) p.1 rs with
      | .ok q => .ok (q.1, p.2 ++ q.2)
      | .error m => .error m
    | .error m => .error m

/-- The table-driving loop of create_documentation, indices from 0. -/
def renderRows (s : PState) (rows : List (List String)) (widths : List ℚ) :
    Except String (PState × List Ev) :=
  renderRowsFrom widths 0 s rows

/-- Modelled from the spec: reserveHeight(h) returns whether h units of
vertical space remain before the bottom margin on the current page, without
mutating state.  The source has no such named operation; its counterpart is
the inline automatic page-break test of FPDF.cell (see breakNeeded). -/
def reserveHeight (s : PState) (h : ℚ) : Bool × PState :=
  (decide (h ≤ pageBreakTrigger - s.y), s)

/-- The StyleContext part of the engine state: font, text color, fill color. -/
def styleOf (s : PState) : Font × RGB × RGB :=
  (s.font, s.textColor, s.fillColor)

/-- Everything in the state except the StyleContext: page, cursor, lasth. -/
def sansStyle (s : PState) : ℕ × ℚ × ℚ × ℚ :=
  (s.page, s.x, s.y, s.lasth)

/-- Fill color of row index i in the table loops of create_documentation:
light gray on even indices, white on odd ones. -/
def stripeColor (i : ℕ) : RGB :=
  if i % 2 = 0 then ⟨248, 248, 248⟩ else ⟨255, 255, 255⟩


/-! ### Concrete states used in scenario runs and witnesses -/

/-- State in the middle of a code block two lines short of the bottom margin:
page 2, Courier 9, black text, light gray fill, cursor at x = 10. -/
def sCode : PState :=
  ⟨2, 10, 275, ⟨"Courier", "", 9⟩, ⟨0, 0, 0⟩, ⟨240, 240, 240⟩, 5⟩

/-- A state at the top of page 2, as produced by opening a page. -/
def sPage2 : PState :=
  ⟨2, lMargin, tMargin, ⟨"Helvetica", "", 10⟩, ⟨0, 0, 0⟩, ⟨255, 255, 255⟩, 10⟩

/-- A state on page 2 with exactly 12 units of vertical space left before the
bottom margin (y = page_break_trigger - 12), cursor at x = 10. -/
def sBreak : PState :=
  ⟨2, 10, pageBreakTrigger - 12, ⟨"Helvetica", "", 10⟩, ⟨0, 0, 0⟩, ⟨0, 0, 0⟩, 5⟩

/-- A mid-document state on page 2 used for concrete table runs. -/
def sTab : PState :=
  ⟨2, lMargin, 30, ⟨"Helvetica", "", 10⟩, ⟨0, 0, 0⟩, ⟨255, 255, 255⟩, 10⟩

/-- The same page/cursor position as sTab but with entirely different font,
text color and fill color: used to witness renderer determinism. -/
def sTabAlt : PState :=
  ⟨2, lMargin, 30, ⟨"Courier", "B", 7⟩, ⟨1, 2, 3⟩, ⟨9, 9, 9⟩, 10⟩

/-- A trivial text-measurement collaborator for concrete runs: every string is
a single line (no wrapping). -/
def oneLineWrap : Font → ℚ → String → List String :=
  fun _ _ t => [t]

/-! ### Basic state lemmas -/

lemma addPage_fillColor (s : PState) : (addPage s).1.fillColor = s.fillColor := rfl

lemma addPage_textColor (s : PState) : (addPage s).1.textColor = s.textColor := rfl

lemma addPage_font (s : PState) (hfam : s.font.family ≠ "") :
    (addPage s).1.font = s.font := by
  unfold addPage
  simp [hfam]

lemma addPage_style (s : PState) (hfam : s.font.family ≠ "") :
    styleOf (addPage s).1 = styleOf s := by
  unfold styleOf
  rw [addPage_font s hfam, addPage_fillColor, addPage_textColor]

lemma cellDraw_style (s : PState) (w h : ℚ) (txt : String) (b : Bool) (l : ℕ)
    (a : String) (f : Bool) : styleOf (cellDraw s w h txt b l a f).1 = styleOf s := by
  unfold cellDraw styleOf
  dsimp only
  split <;> rfl

lemma cell_style (s : PState) (w h : ℚ) (txt : String) (b : Bool) (l : ℕ)
    (a : String) (f : Bool) (hfam : s.font.family ≠ "") :
    styleOf (cell s w h txt b l a f).1 = styleOf s := by
  unfold cell
  dsimp only
  by_cases hb : breakNeeded s h = true
  · simp only [hb, if_true]
    rw [cellDraw_style]
    have hx : styleOf { (addPage s).1 with x := s.x } = styleOf (addPage s).1 := rfl
    rw [hx, addPage_style s hfam]
  · simp only [hb, if_false]
    exact cellDraw_style ..

lemma cell_font (s : PState) (w h : ℚ) (txt : String) (b : Bool) (l : ℕ)
    (a : String) (f : Bool) (hfam : s.font.family ≠ "") :
    (cell s w h txt b l a f).1.font = s.font :=
  congrArg (fun p => p.1) (cell_style s w h txt b l a f hfam)

lemma cell_font_after_set (s : PState) (fam sty : String) (sz : ℚ) (r g b : ℕ)
    (w h : ℚ) (txt : String) (bo : Bool) (l : ℕ) (a : String) (f : Bool)
    (hfam : fam ≠ "") :
    (cell (setTextColor (setFont s fam sty sz) r g b) w h txt bo l a f).1.font
      = ⟨fam, sty, sz⟩ := by
  rw [cell_font]
  · rfl
  · exact hfam

lemma cell_textColor (s : PState) (w h : ℚ) (txt : String) (b : Bool) (l : ℕ)
    (a : String) (f : Bool) (hfam : s.font.family ≠ "") :
    (cell s w h txt b l a f).1.textColor = s.textColor :=
  congrArg (fun p => p.2.1) (cell_style s w h txt b l a f hfam)

lemma cell_fillColor (s : PState) (w h : ℚ) (txt : String) (b : Bool) (l : ℕ)
    (a : String) (f : Bool) : (cell s w h txt b l a f).1.fillColor = s.fillColor := by
  unfold cell
  dsimp only
  by_cases hb : breakNeeded s h = true
  · simp only [hb, if_true]
    have h1 : styleOf (cellDraw { (addPage s).1 with x := s.x } w h txt b l a f).1
        = styleOf { (addPage s).1 with x := s.x } := cellDraw_style ..
    have h2 := congrArg (fun p => p.2.2) h1
    simp only [styleOf] at h2
    rw [h2]
    exact addPage_fillColor s
  · simp only [hb, if_false]
    exact congrArg (fun p => p.2.2) (cellDraw_style s w h txt b l a f)

/-! ### Claim theorems -/

/-- Claim C1: the font family, style flags, size, and text (and fill) color in
effect immediately before an automatic page break are identical to those in
effect immediately after the break: neither add_page (which saves the style,
runs the footer and header hooks — both of which change font and color — and
restores the saved style) nor a cell call that triggers the automatic break
changes the StyleContext, provided a font has been selected. -/
theorem c1_style_not_reset (s : PState) (w h : ℚ) (txt : String) (b : Bool)
    (l : ℕ) (a : String) (f : Bool) (hfam : s.font.family ≠ "") :
    styleOf (addPage s).1 = styleOf s
      ∧ styleOf (cell s w h txt b l a f).1 = styleOf s :=
  ⟨addPage_style s hfam, cell_style s w h txt b l a f hfam⟩

/-- Witness for C1: a concrete mid-code-block state whose next 5-unit line
triggers the automatic break (275 + 5 > 277) keeps its style across the break. -/
theorem c1_witness :
    styleOf (addPage sCode).1 = styleOf sCode
      ∧ styleOf (cell sCode 0 5 "  x" false 1 "" true).1 = styleOf sCode :=
  c1_style_not_reset sCode 0 5 "  x" false 1 "" true (by decide)

/-- Claim C7: reserveHeight(h), the spec's name for the look-ahead fits test,
returns true exactly when h units of vertical space remain before the bottom
margin (equivalently, exactly when the automatic page-break test of cell would
not fire for a cell of height h), and leaves the engine state unchanged. -/
theorem c7_reserve_height (s : PState) (h : ℚ) :
    (reserveHeight s h).2 = s
      ∧ ((reserveHeight s h).1 = true ↔ s.y + h ≤ pageBreakTrigger)
      ∧ (reserveHeight s h).1 = !breakNeeded s h := by
  refine ⟨rfl, ?_, ?_⟩
  · simp only [reserveHeight, decide_eq_true_eq]
    constructor <;> intro h1 <;> linarith
  · by_cases hc : pageBreakTrigger < s.y + h
    · have h1 : ¬(h ≤ pageBreakTrigger - s.y) := by linarith
      simp [reserveHeight, breakNeeded, hc, h1]
    · have h1 : h ≤ pageBreakTrigger - s.y := by linarith
      simp [reserveHeight, breakNeeded, hc, h1]

/-- Claim C8: the three heading renderers are strictly ordered by visual size:
chapter_title uses font size 18 and trailing gap 4, section_title size 14 and
gap 2, subsection_title size 11 and gap 1; sizes and gaps strictly decrease. -/
theorem c8_heading_order (s : PState) (t : String) :
    (chapterTitle s t).1.font.size = 18
      ∧ (sectionTitle s t).1.font.size = 14
      ∧ (subsectionTitle s t).1.font.size = 11
      ∧ (sectionTitle s t).1.font.size < (chapterTitle s t).1.font.size
      ∧ (subsectionTitle s t).1.font.size < (sectionTitle s t).1.font.size
      ∧ sectionTitleGap < chapterTitleGap
      ∧ subsectionTitleGap < sectionTitleGap := by
  have hc : (chapterTitle s t).1.font = ⟨"Helvetica", "B", 18⟩ :=
    cell_font_after_set s "Helvetica" "B" 18 0 100 180 0 12 t false 1 "" false (by decide)
  have hs : (sectionTitle s t).1.font = ⟨"Helvetica", "B", 14⟩ :=
    cell_font_after_set s "Helvetica" "B" 14 50 50 50 0 10 t false 1 "" false (by decide)
  have hu : (subsectionTitle s t).1.font = ⟨"Helvetica", "B", 11⟩ :=
    cell_font_after_set s "Helvetica" "B" 11 80 80 80 0 8 t false 1 "" false (by decide)
  refine ⟨?_, ?_, ?_, ?_, ?_, ?_, ?_⟩ <;>
    simp [hc, hs, hu, chapterTitleGap, sectionTitleGap, subsectionTitleGap] <;> norm_num

/-- Counterexample to C2 as stated: after the header hook runs on page 2, the
cursor x is 10 (the source's set_x(10)), which is not the engine's left margin
of 10.00125 (FPDF's default margin 28.35/k). -/
theorem c2_counterexample :
    (header sPage2).1.x = 10 ∧ (header sPage2).1.x ≠ lMargin := by
  constructor <;>
    norm_num [header, sPage2, cellDraw, setFont, setTextColor, lnBy, setX,
      lMargin, defMargin, kMM]

/-- Claim C2 (amended): no header content is drawn on page 1; on every page
N > 1 the header draws the document title left-aligned and 'Page N'
right-aligned and then resets the cursor x to 10, the nominal left margin
(the engine's exact left margin is 10.00125); the footer draws the same fixed
centered caption string on every page, including page 1. -/
theorem c2_header_footer (s : PState) :
    (s.page ≤ 1 → header s = (s, []))
      ∧ (1 < s.page →
          (header s).2
            = [⟨s.page, s.x, s.y, 95, 10, "Basic-10 Compiler Documentation",
                ⟨"Helvetica", "I", 9⟩, ⟨128, 128, 128⟩, none, "L", false⟩,
               ⟨s.page, s.x + 95, s.y, 95, 10, "Page " ++ toString s.page,
                ⟨"Helvetica", "I", 9⟩, ⟨128, 128, 128⟩, none, "R", false⟩]
            ∧ (header s).1.x = 10)
      ∧ (footer s).2
          = [⟨s.page, lMargin, pageH - 15, pageW - rMargin - lMargin, 10,
              "Basic-10 v1.9.1 - BASIC to IC10 Compiler for Stationeers",
              ⟨"Helvetica", "I", 8⟩, ⟨128, 128, 128⟩, none, "C", false⟩] := by
  refine ⟨?_, ?_, ?_⟩
  · intro h1
    rw [header, if_neg (by omega)]
  · intro h2
    rw [header, if_pos h2]
    norm_num [cellDraw, setFont, setTextColor, lnBy, setX]
  · rw [footer]
    norm_num [cellDraw, setY, setFont, setTextColor]
    ring

/-- Witness for C2 (amended): on the concrete page-2 state the header resets
x to 10 and the footer draws the fixed caption. -/
theorem c2_witness :
    (header sPage2).1.x = 10
      ∧ (footer sPage2).2
          = [⟨sPage2.page, lMargin, pageH - 15, pageW - rMargin - lMargin, 10,
              "Basic-10 v1.9.1 - BASIC to IC10 Compiler for Stationeers",
              ⟨"Helvetica", "I", 8⟩, ⟨128, 128, 128⟩, none, "C", false⟩] :=
  ⟨((c2_header_footer sPage2).2.1 (by decide)).2, (c2_header_footer sPage2).2.2⟩

/-- Claim C4: a 3-line code block (5 units per line) emitted with exactly 12
units remaining places lines 1 and 2 on the current page (at trigger-12 and
trigger-7), and line 3 triggers the break and is drawn whole as the first
content cell of the next page (at x = 10, just below the header band);
content cells are the filled events — the interleaved footer/header
decoration cells carry no fill. -/
theorem c4_line_atomicity :
    ((codeBlock sBreak "line1\nline2\nline3").2.filter (fun e => e.fill.isSome)).map
        (fun e => (e.page, e.x, e.y, e.txt))
      = [(2, 10, pageBreakTrigger - 12, "  line1"),
         (2, 10, pageBreakTrigger - 7, "  line2"),
         (3, 10, tMargin + 10, "  line3")]
      ∧ (codeBlock sBreak "line1\nline2\nline3").1.page = 3 := by
  constructor <;>
  · simp [codeBlock, codeLines, cell, cellDraw, addPage, header, footer,
      breakNeeded, setFont, setTextColor, setFillColor, setX, setY, lnBy,
      pyStrip, stripList, pyIsSpace, splitNL, pySplitNL, sBreak,
      pageBreakTrigger, pageH, bMargin, tMargin, lMargin, rMargin, defMargin,
      kMM, pageW]
    norm_num
    all_goals simp
    all_goals norm_num

lemma rowCells_ok (cols : List String) :
    ∀ (widths : List ℚ) (s : PState) (h : ℚ) (a : String),
      cols.length ≤ widths.length → ∃ p, rowCells h a s cols widths = .ok p := by
  induction cols with
  | nil =>
    intro widths s h a _
    exact ⟨(s, []), rfl⟩
  | cons c cs ih =>
    intro widths s h a hlen
    cases widths with
    | nil => simp at hlen
    | cons w ws =>
      obtain ⟨p, hp⟩ := ih ws (cell s w h c true 0 a true).1 h a (by simpa using hlen)
      refine ⟨(p.1, (cell s w h c true 0 a true).2 ++ p.2), ?_⟩
      simp only [rowCells]
      rw [hp]

lemma rowCells_err (cols : List String) :
    ∀ (widths : List ℚ) (s : PState) (h : ℚ) (a : String),
      widths.length < cols.length →
      rowCells h a s cols widths = .error "list index out of range" := by
  induction cols with
  | nil =>
    intro widths s h a hlen
    simp at hlen
  | cons c cs ih =>
    intro widths s h a hlen
    cases widths with
    | nil => rfl
    | cons w ws =>
      simp only [rowCells]
      rw [ih ws (cell s w h c true 0 a true).1 h a (by simpa using hlen)]

/-- Counterexample to C6 as stated: a table_row call with zero columns and one
width has mismatched counts, yet it succeeds silently instead of failing. -/
theorem c6_counterexample :
    (([] : List String).length ≠ ([(50 : ℚ)] : List ℚ).length)
      ∧ ∃ p, tableRow sTab [] [50] false = .ok p :=
  ⟨by decide, ⟨_, rfl⟩⟩

/-- Claim C6 (amended): the table renderers never validate the column/width
counts: with at most as many columns as widths the call succeeds, silently
ignoring any extra widths; with more columns than widths it fails only with
Python's uninformative IndexError text 'list index out of range', raised on
reaching the first column without a width. -/
theorem c6_counts_unchecked (s : PState) (cols : List String) (widths : List ℚ)
    (f : Bool) :
    (cols.length ≤ widths.length →
        (∃ p, tableHeader s cols widths = .ok p)
          ∧ ∃ q, tableRow s cols widths f = .ok q)
      ∧ (widths.length < cols.length →
          tableHeader s cols widths = .error "list index out of range"
            ∧ tableRow s cols widths f = .error "list index out of range") := by
  constructor
  · intro hlen
    constructor
    · obtain ⟨p, hp⟩ := rowCells_ok cols widths
        (setTextColor (setFillColor (setFont s "Helvetica" "B" 9) 0 100 180) 255 255 255)
        7 "C" hlen
      refine ⟨(lnBy p.1 none, p.2), ?_⟩
      simp only [tableHeader]
      rw [hp]
    · obtain ⟨p, hp⟩ := rowCells_ok cols widths
        (if f then setFillColor (setTextColor (setFont s "Courier" "" 8) 0 0 0) 248 248 248
         else setFillColor (setTextColor (setFont s "Courier" "" 8) 0 0 0) 255 255 255)
        6 "" hlen
      refine ⟨(lnBy p.1 none, p.2), ?_⟩
      simp only [tableRow]
      rw [hp]
  · intro hlen
    constructor
    · simp only [tableHeader]
      rw [rowCells_err cols widths _ 7 "C" hlen]
    · simp only [tableRow]
      rw [rowCells_err cols widths _ 6 "" hlen]

/-- Witness for C6 (amended): one width too many succeeds; two columns too
many fail with the index error. -/
theorem c6_witness :
    (∃ q, tableRow sTab ["a"] [50, 60] false = .ok q)
      ∧ tableRow sTab ["a", "b", "c"] [50] false = .error "list index out of range" :=
  ⟨((c6_counts_unchecked sTab ["a"] [50, 60] false).1 (by decide)).2,
   ((c6_counts_unchecked sTab ["a", "b", "c"] [50] false).2 (by decide)).2⟩

/-! ### Code-block lemmas (C5, C9) -/

lemma cellDraw_snd (s : PState) (w h : ℚ) (txt : String) (b : Bool) (l : ℕ)
    (a : String) (f : Bool) :
    (cellDraw s w h txt b l a f).2
      = [⟨s.page, s.x, s.y, if w = 0 then pageW - rMargin - s.x else w, h, txt,
          s.font, s.textColor, if f then some s.fillColor else none, a, b⟩] := rfl

lemma footer_unfilled (s : PState) : ∀ e ∈ (footer s).2, e.fill = none := by
  intro e he
  simp only [footer] at he
  rw [cellDraw_snd, List.mem_singleton] at he
  subst he
  rfl

lemma header_unfilled (s : PState) : ∀ e ∈ (header s).2, e.fill = none := by
  intro e he
  simp only [header] at he
  by_cases hp : 1 < s.page
  · rw [if_pos hp] at he
    dsimp only at he
    rw [cellDraw_snd, cellDraw_snd, List.mem_append, List.mem_singleton,
      List.mem_singleton] at he
    rcases he with h1 | h2
    · subst h1
      rfl
    · subst h2
      rfl
  · rw [if_neg hp] at he
    simp at he

lemma addPage_unfilled (s : PState) : ∀ e ∈ (addPage s).2, e.fill = none := by
  intro e he
  unfold addPage at he
  dsimp only at he
  rw [List.mem_append] at he
  rcases he with h1 | h2
  · by_cases hp : 0 < s.page
    · rw [if_pos hp] at h1
      exact footer_unfilled s e h1
    · rw [if_neg hp] at h1
      simp at h1
  · exact header_unfilled _ e h2

/-- Every cell call draws exactly one cell for its text (at the pre-call x,
with the current font/colors); any other events it emits are the unfilled
footer/header decoration of an automatic page break. -/
lemma cell_decomp (s : PState) (w h : ℚ) (txt : String) (b : Bool) (l : ℕ)
    (a : String) (f : Bool) (hfam : s.font.family ≠ "") :
    ∃ (pre : List Ev) (P : ℕ) (Y : ℚ),
      (cell s w h txt b l a f).2
        = pre ++ [⟨P, s.x, Y, if w = 0 then pageW - rMargin - s.x else w, h, txt,
                   s.font, s.textColor, if f then some s.fillColor else none, a, b⟩]
        ∧ ∀ e ∈ pre, e.fill = none := by
  unfold cell
  dsimp only
  by_cases hb : breakNeeded s h = true
  · rw [if_pos hb]
    dsimp only
    refine ⟨(addPage s).2, (addPage s).1.page, (addPage s).1.y, ?_, addPage_unfilled s⟩
    rw [cellDraw_snd]
    simp [addPage_font s hfam, addPage_textColor, addPage_fillColor]
  · rw [if_neg hb]
    dsimp only
    refine ⟨[], s.page, s.y, ?_, by simp⟩
    rw [cellDraw_snd]

lemma codeLines_spec (ls : List String) :
    ∀ s : PState, s.font = ⟨"Courier", "", 9⟩ → s.fillColor = ⟨240, 240, 240⟩ →
      (((codeLines s ls).2.filter (fun e => e.fill.isSome)).map Ev.txt
          = ls.map (fun l => "  " ++ l))
        ∧ (∀ e ∈ (codeLines s ls).2.filter (fun e => e.fill.isSome),
            e.font = ⟨"Courier", "", 9⟩ ∧ e.fill = some ⟨240, 240, 240⟩ ∧ e.x = 10
              ∧ e.x + e.w = pageW - rMargin ∧ e.x ≤ lMargin)
        ∧ (codeLines s ls).1.font = s.font
        ∧ (codeLines s ls).1.fillColor = s.fillColor := by
  induction ls with
  | nil =>
    intro s hf hfc
    exact ⟨rfl, by simp [codeLines], rfl, rfl⟩
  | cons l ls ih =>
    intro s hf hfc
    have hx0 : (setX s 10).x = 10 := by norm_num [setX]
    have hf0 : (setX s 10).font = ⟨"Courier", "", 9⟩ := hf
    have hfc0 : (setX s 10).fillColor = ⟨240, 240, 240⟩ := hfc
    have hfam : (setX s 10).font.family ≠ "" := by
      rw [hf0]
      decide
    obtain ⟨pre, P, Y, heq, hpre⟩ :=
      cell_decomp (setX s 10) 0 5 ("  " ++ l) false 1 "" true hfam
    have hf1 : (cell (setX s 10) 0 5 ("  " ++ l) false 1 "" true).1.font
        = ⟨"Courier", "", 9⟩ := by
      rw [cell_font _ _ _ _ _ _ _ _ hfam]
      exact hf0
    have hfc1 : (cell (setX s 10) 0 5 ("  " ++ l) false 1 "" true).1.fillColor
        = ⟨240, 240, 240⟩ := by
      rw [cell_fillColor]
      exact hfc0
    obtain ⟨ihmap, ihev, ihfont, ihfc⟩ :=
      ih (cell (setX s 10) 0 5 ("  " ++ l) false 1 "" true).1 hf1 hfc1
    have hpre0 : pre.filter (fun e => e.fill.isSome) = [] := by
      rw [List.filter_eq_nil_iff]
      intro e he
      rw [hpre e he]
      simp
    have hsplit : (codeLines s (l :: ls)).2
        = (cell (setX s 10) 0 5 ("  " ++ l) false 1 "" true).2
            ++ (codeLines (cell (setX s 10) 0 5 ("  " ++ l) false 1 "" true).1 ls).2 := rfl
    have hfilter : (codeLines s (l :: ls)).2.filter (fun e => e.fill.isSome)
        = ⟨P, (setX s 10).x, Y, if (0 : ℚ) = 0 then pageW - rMargin - (setX s 10).x else 0,
            5, "  " ++ l, (setX s 10).font, (setX s 10).textColor,
            if true then some (setX s 10).fillColor else none, "", false⟩
          :: (codeLines (cell (setX s 10) 0 5 ("  " ++ l) false 1 "" true).1 ls).2.filter
              (fun e => e.fill.isSome) := by
      rw [hsplit, List.filter_append, heq, List.filter_append, hpre0]
      simp [hfc0]
    refine ⟨?_, ?_, ?_, ?_⟩
    · rw [hfilter, List.map_cons, ihmap]
      rfl
    · rw [hfilter]
      intro e he
      rcases List.mem_cons.mp he with h1 | h2
      · subst h1
        refine ⟨hf0, by simp [hfc0], ?_, ?_, ?_⟩
        · exact hx0
        · simp only [hx0]
          norm_num
          try ring
        · simp only [hx0]
          norm_num [lMargin, defMargin, kMM]
      · exact ihev e h2
    · have hrest : (codeLines s (l :: ls)).1
          = (codeLines (cell (setX s 10) 0 5 ("  " ++ l) false 1 "" true).1 ls).1 := rfl
      rw [hrest, ihfont, hf1, hf]
    · have hrest : (codeLines s (l :: ls)).1
          = (codeLines (cell (setX s 10) 0 5 ("  " ++ l) false 1 "" true).1 ls).1 := rfl
      rw [hrest, ihfc, hfc1, hfc]

/-- Claim C5: for every input string, code_block splits only on newline
characters (after the strip studied in C9) and never word-wraps: it draws
exactly one cell per resulting line, in the fixed-width font Courier 9, with
a (240,240,240) background fill whose rectangle starts at x = 10 (left of the
left margin) and ends at the right margin, so it spans the full content
width, and with exactly two spaces prepended to every line. -/
theorem c5_code_block_renderer (s : PState) (code : String) :
    (((codeBlock s code).2.filter (fun e => e.fill.isSome)).map Ev.txt
        = (pySplitNL (pyStrip code)).map (fun l => "  " ++ l))
      ∧ ∀ e ∈ (codeBlock s code).2.filter (fun e => e.fill.isSome),
          e.font = ⟨"Courier", "", 9⟩ ∧ e.fill = some ⟨240, 240, 240⟩
            ∧ e.x = 10 ∧ e.x + e.w = pageW - rMargin ∧ e.x ≤ lMargin := by
  obtain ⟨h1, h2, -, -⟩ := codeLines_spec (pySplitNL (pyStrip code))
    (setTextColor (setFillColor (setFont s "Courier" "" 9) 240 240 240) 0 0 0) rfl rfl
  exact ⟨h1, h2⟩

/-- Witness for C5: a concrete two-line code block draws exactly the two
indented lines as its filled cells. -/
theorem c5_witness :
    ((codeBlock sTab "x\ny").2.filter (fun e => e.fill.isSome)).map Ev.txt
      = (pySplitNL (pyStrip "x\ny")).map (fun l => "  " ++ l) :=
  (c5_code_block_renderer sTab "x\ny").1

lemma pyStrip_newline_left (t : String) : pyStrip ("\n" ++ t) = pyStrip t := by
  unfold pyStrip stripList
  rw [String.data_append]
  simp [show ("\n" : String).data = ['\n'] from rfl, List.dropWhile_cons,
    pyIsSpace]

lemma pyStrip_newline_right (t : String) : pyStrip (t ++ "\n") = pyStrip t := by
  unfold pyStrip stripList
  rw [String.data_append, List.dropWhile_append]
  by_cases hE : (t.data.dropWhile pyIsSpace).isEmpty = true
  · rw [if_pos hE]
    have h0 : t.data.dropWhile pyIsSpace = [] := by
      simpa [List.isEmpty_iff] using hE
    rw [h0]
    simp [show ("\n" : String).data = ['\n'] from rfl, List.dropWhile_cons, pyIsSpace]
  · rw [if_neg hE]
    simp [show ("\n" : String).data = ['\n'] from rfl, List.reverse_append,
      List.dropWhile_cons, pyIsSpace]

/-- Claim C9: code_block strips all leading and trailing whitespace (including
whole blank lines) before splitting into lines — prepending or appending a
newline to the input never changes the rendered lines — while interior blank
lines are preserved, as the concrete input with two leading, two trailing and
one interior blank line shows. -/
theorem c9_strip_before_split (s : PState) (code : String) :
    (((codeBlock s code).2.filter (fun e => e.fill.isSome)).map Ev.txt
        = (pySplitNL (pyStrip code)).map (fun l => "  " ++ l))
      ∧ (∀ t : String, pyStrip ("\n" ++ t) = pyStrip t ∧ pyStrip (t ++ "\n") = pyStrip t)
      ∧ pySplitNL (pyStrip "\n\na\n\nb\n\n") = ["a", "", "b"] := by
  refine ⟨?_, ?_, by decide⟩
  · exact (codeLines_spec (pySplitNL (pyStrip code))
      (setTextColor (setFillColor (setFont s "Courier" "" 9) 240 240 240) 0 0 0) rfl rfl).1
  · intro t
    exact ⟨pyStrip_newline_left t, pyStrip_newline_right t⟩

/-! ### Table striping lemmas (C3) -/

/-- The fill color table_row installs: (248,248,248) when fill is requested,
(255,255,255) otherwise. -/
def rowFill (f : Bool) : RGB :=
  if f then ⟨248, 248, 248⟩ else ⟨255, 255, 255⟩

lemma stripeColor_eq_rowFill (i : ℕ) : stripeColor i = rowFill (i % 2 == 0) := by
  by_cases h : i % 2 = 0 <;> simp [stripeColor, rowFill, h]

lemma rowCells_fill (cols : List String) :
    ∀ (widths : List ℚ) (s : PState) (h : ℚ) (a : String) (p : PState × List Ev),
      s.font.family ≠ "" →
      rowCells h a s cols widths = .ok p →
      ((p.2.filter (fun e => e.fill.isSome)).length = cols.length
        ∧ (∀ e ∈ p.2, ∀ c : RGB, e.fill = some c → c = s.fillColor)
        ∧ p.1.font = s.font ∧ p.1.fillColor = s.fillColor) := by
  induction cols with
  | nil =>
    intro widths s h a p hfam hok
    simp only [rowCells, Except.ok.injEq] at hok
    subst hok
    simp
  | cons c cs ih =>
    intro widths s h a p hfam hok
    cases widths with
    | nil => simp [rowCells] at hok
    | cons w ws =>
      simp only [rowCells] at hok
      cases hrc : rowCells h a (cell s w h c true 0 a true).1 cs ws with
      | error m =>
        rw [hrc] at hok
        simp at hok
      | ok q =>
        rw [hrc] at hok
        dsimp only at hok
        simp only [Except.ok.injEq] at hok
        subst hok
        have hfam1 : (cell s w h c true 0 a true).1.font.family ≠ "" := by
          rw [cell_font _ _ _ _ _ _ _ _ hfam]
          exact hfam
        obtain ⟨ihlen, ihcol, ihfont, ihfc⟩ := ih ws _ h a q hfam1 hrc
        obtain ⟨pre, P, Y, heq, hpre⟩ := cell_decomp s w h c true 0 a true hfam
        have hpre0 : pre.filter (fun e => e.fill.isSome) = [] := by
          rw [List.filter_eq_nil_iff]
          intro e he
          rw [hpre e he]
          simp
        refine ⟨?_, ?_, ?_, ?_⟩
        · rw [List.filter_append, heq, List.filter_append, hpre0]
          simp [ihlen]
        · intro e he c0 hc0
          rcases List.mem_append.mp he with h1 | h2
          · rw [heq] at h1
            rcases List.mem_append.mp h1 with h3 | h4
            · rw [hpre e h3] at hc0
              cases hc0
            · rw [List.mem_singleton] at h4
              subst h4
              simp at hc0
              exact hc0.symm
          · have := ihcol e h2 c0 hc0
            rw [this, cell_fillColor]
        · rw [ihfont, cell_font _ _ _ _ _ _ _ _ hfam]
        · rw [ihfc, cell_fillColor]

lemma tableRow_fill (s : PState) (cols : List String) (widths : List ℚ) (f : Bool)
    (p : PState × List Ev) (hok : tableRow s cols widths f = .ok p) :
    (p.2.filter (fun e => e.fill.isSome)).length = cols.length
      ∧ ∀ e ∈ p.2, ∀ c : RGB, e.fill = some c → c = rowFill f := by
  cases f with
  | false =>
    simp only [tableRow, Bool.false_eq_true, if_false] at hok
    cases hrc : rowCells 6 ""
        (setFillColor (setTextColor (setFont s "Courier" "" 8) 0 0 0) 255 255 255)
        cols widths with
    | error m =>
      rw [hrc] at hok
      simp at hok
    | ok q =>
      rw [hrc] at hok
      dsimp only at hok
      simp only [Except.ok.injEq] at hok
      subst hok
      obtain ⟨hlen, hcol, -, -⟩ := rowCells_fill cols widths _ 6 "" q
        (by simp [setFillColor, setTextColor, setFont]) hrc
      exact ⟨hlen, fun e he c hc => by simpa [rowFill] using hcol e he c hc⟩
  | true =>
    simp only [tableRow, if_true] at hok
    cases hrc : rowCells 6 ""
        (setFillColor (setTextColor (setFont s "Courier" "" 8) 0 0 0) 248 248 248)
        cols widths with
    | error m =>
      rw [hrc] at hok
      simp at hok
    | ok q =>
      rw [hrc] at hok
      dsimp only at hok
      simp only [Except.ok.injEq] at hok
      subst hok
      obtain ⟨hlen, hcol, -, -⟩ := rowCells_fill cols widths _ 6 "" q
        (by simp [setFillColor, setTextColor, setFont]) hrc
      exact ⟨hlen, fun e he c hc => by simpa [rowFill] using hcol e he c hc⟩

lemma renderRowsFrom_spec (widths : List ℚ) (rows : List (List String)) :
    ∀ (k : ℕ) (s : PState) (p : PState × List Ev),
      renderRowsFrom widths k s rows = .ok p →
      ∃ chunks : List (List Ev),
        p.2 = chunks.flatten
          ∧ chunks.length = rows.length
          ∧ ∀ i, i < rows.length →
              ((chunks.getD i []).filter (fun e => e.fill.isSome)).length
                  = (rows.getD i []).length
                ∧ ∀ e ∈ chunks.getD i [], ∀ c : RGB, e.fill = some c
                    → c = stripeColor (k + i) := by
  induction rows with
  | nil =>
    intro k s p hok
    simp only [renderRowsFrom, Except.ok.injEq] at hok
    subst hok
    exact ⟨[], rfl, rfl, fun i hi => absurd hi (by simp)⟩
  | cons r rs ih =>
    intro k s p hok
    simp only [renderRowsFrom] at hok
    cases htr : tableRow s r widths (k % 2 == 0) with
    | error m =>
      rw [htr] at hok
      simp at hok
    | ok q =>
      rw [htr] at hok
      dsimp only at hok
      cases hrr : renderRowsFrom widths (k + 1) q.1 rs with
      | error m =>
        rw [hrr] at hok
        simp at hok
      | ok u =>
        rw [hrr] at hok
        dsimp only at hok
        simp only [Except.ok.injEq] at hok
        subst hok
        obtain ⟨chunks, hjoin, hlenc, hprops⟩ := ih (k + 1) q.1 u hrr
        obtain ⟨hlenq, hcolq⟩ := tableRow_fill s r widths (k % 2 == 0) q htr
        refine ⟨q.2 :: chunks, by simp [hjoin], by simp [hlenc], ?_⟩
        intro i hi
        cases i with
        | zero =>
          refine ⟨by simpa using hlenq, ?_⟩
          intro e he c hc
          rw [hcolq e (by simpa using he) c hc, ← stripeColor_eq_rowFill k]
          simp
        | succ j =>
          have hj : j < rs.length := by simpa using hi
          obtain ⟨h1, h2⟩ := hprops j hj
          refine ⟨by simpa using h1, ?_⟩
          intro e he c hc
          have h3 := h2 e (by simpa using he) c hc
          rw [show k + (j + 1) = k + 1 + j by omega]
          exact h3

/-- Counterexample to C3 as stated: in the enumerate loop on two one-column
rows, the odd-indexed row is NOT drawn with "no fill": its cell is drawn with
a white (255,255,255) fill rectangle (table_row always passes fill=True). -/
theorem c3_counterexample :
    (renderRows sTab [["a"], ["b"]] [50]).map (fun p => p.2.map Ev.fill)
      = .ok [some ⟨248, 248, 248⟩, some ⟨255, 255, 255⟩] := by
  simp [renderRows, renderRowsFrom, tableRow, rowCells, cell, cellDraw,
    breakNeeded, addPage, header, footer, setFont, setTextColor, setFillColor,
    setX, setY, lnBy, sTab, pageBreakTrigger, pageH, bMargin, tMargin, lMargin,
    rMargin, defMargin, kMM, pageW, Except.map]
  norm_num

/-- Claim C3 (amended): in the enumerate-driven table loops, every data row
with zero-based index i is drawn with fill color (248,248,248) when i is even
and with a white (255,255,255) fill — a drawn rectangle, visually blank but
not "no fill" — when i is odd; the parity is determined solely by i, for every
starting state (page, cursor), so a page break interrupting the table never
shifts or restarts the alternation (break-decoration cells carry no fill and
are excluded). -/
theorem c3_stripe_parity (s : PState) (rows : List (List String))
    (widths : List ℚ) (p : PState × List Ev)
    (hok : renderRows s rows widths = .ok p) :
    ∃ chunks : List (List Ev),
      p.2 = chunks.flatten
        ∧ chunks.length = rows.length
        ∧ ∀ i, i < rows.length →
            ((chunks.getD i []).filter (fun e => e.fill.isSome)).length
                = (rows.getD i []).length
              ∧ ∀ e ∈ chunks.getD i [], ∀ c : RGB, e.fill = some c
                  → c = stripeColor i := by
  obtain ⟨chunks, h1, h2, h3⟩ := renderRowsFrom_spec widths rows 0 s p hok
  refine ⟨chunks, h1, h2, fun i hi => ⟨(h3 i hi).1, fun e he c hc => ?_⟩⟩
  simpa using (h3 i hi).2 e he c hc

/-- Witness for C3 (amended): the concrete two-row run, with its fully
evaluated trace, satisfies the striping specification. -/
theorem c3_witness :
    ∃ p, renderRows sTab [["a"], ["b"]] [50] = .ok p
      ∧ ∃ chunks : List (List Ev),
          p.2 = chunks.flatten
            ∧ chunks.length = 2
            ∧ ∀ i, i < 2 →
                ((chunks.getD i []).filter (fun e => e.fill.isSome)).length
                    = (([["a"], ["b"]] : List (List String)).getD i []).length
                  ∧ ∀ e ∈ chunks.getD i [], ∀ c : RGB, e.fill = some c
                      → c = stripeColor i := by
  have hok : renderRows sTab [["a"], ["b"]] [50]
      = .ok (⟨2, lMargin, 42, ⟨"Courier", "", 8⟩, ⟨0, 0, 0⟩, ⟨255, 255, 255⟩, 6⟩,
             [⟨2, lMargin, 30, 50, 6, "a", ⟨"Courier", "", 8⟩, ⟨0, 0, 0⟩,
               some ⟨248, 248, 248⟩, "", true⟩,
              ⟨2, lMargin, 36, 50, 6, "b", ⟨"Courier", "", 8⟩, ⟨0, 0, 0⟩,
               some ⟨255, 255, 255⟩, "", true⟩]) := by
    simp [renderRows, renderRowsFrom, tableRow, rowCells, cell, cellDraw,
      breakNeeded, addPage, header, footer, setFont, setTextColor, setFillColor,
      setX, setY, lnBy, sTab, pageBreakTrigger, pageH, bMargin, tMargin, lMargin,
      rMargin, defMargin, kMM, pageW]
    norm_num
  exact ⟨_, hok, c3_stripe_parity sTab [["a"], ["b"]] [50] _ hok⟩

/-! ### Renderer determinism lemmas (C10) -/

/-- States that agree on everything except possibly the fill color. -/
def eqButFC (s₁ s₂ : PState) : Prop :=
  s₁.page = s₂.page ∧ s₁.x = s₂.x ∧ s₁.y = s₂.y ∧ s₁.font = s₂.font
    ∧ s₁.textColor = s₂.textColor ∧ s₁.lasth = s₂.lasth

lemma sansStyle_of_eqButFC (s₁ s₂ : PState) (hr : eqButFC s₁ s₂) :
    sansStyle s₁ = sansStyle s₂ := by
  obtain ⟨h1, h2, h3, -, -, h6⟩ := hr
  simp [sansStyle, h1, h2, h3, h6]

lemma eqButFC_lnBy (s₁ s₂ : PState) (g : Option ℚ) (hr : eqButFC s₁ s₂) :
    eqButFC (lnBy s₁ g) (lnBy s₂ g) := by
  obtain ⟨h1, h2, h3, h4, h5, h6⟩ := hr
  exact ⟨h1, rfl, by simp [lnBy, h3, h6], h4, h5, h6⟩

lemma cellDraw_congr (w h : ℚ) (t : String) (b : Bool) (l : ℕ) (a : String)
    (s₁ s₂ : PState) (hr : eqButFC s₁ s₂) :
    (cellDraw s₁ w h t b l a false).2 = (cellDraw s₂ w h t b l a false).2
      ∧ eqButFC (cellDraw s₁ w h t b l a false).1 (cellDraw s₂ w h t b l a false).1 := by
  obtain ⟨h1, h2, h3, h4, h5, h6⟩ := hr
  unfold cellDraw eqButFC
  dsimp only
  constructor
  · simp [h1, h2, h3, h4, h5]
  · by_cases hl : 0 < l
    · by_cases hl1 : l = 1 <;> simp [hl, hl1, h1, h2, h3, h4, h5, h6]
    · simp [hl, h1, h2, h3, h4, h5, h6]

lemma footer_congr (s₁ s₂ : PState) (hr : eqButFC s₁ s₂) :
    (footer s₁).2 = (footer s₂).2 ∧ eqButFC (footer s₁).1 (footer s₂).1 := by
  obtain ⟨p, x, y, f, tc, fc1, lh⟩ := s₁
  obtain ⟨p2, x2, y2, f2, tc2, fc2, lh2⟩ := s₂
  obtain ⟨h1, h2, h3, h4, h5, h6⟩ := hr
  dsimp only at h1 h2 h3 h4 h5 h6
  subst h1
  subst h2
  subst h3
  subst h4
  subst h5
  subst h6
  constructor <;> simp [footer, cellDraw, setY, setFont, setTextColor, eqButFC]

lemma header_congr (s₁ s₂ : PState) (hr : eqButFC s₁ s₂) :
    (header s₁).2 = (header s₂).2 ∧ eqButFC (header s₁).1 (header s₂).1 := by
  obtain ⟨p, x, y, f, tc, fc1, lh⟩ := s₁
  obtain ⟨p2, x2, y2, f2, tc2, fc2, lh2⟩ := s₂
  obtain ⟨h1, h2, h3, h4, h5, h6⟩ := hr
  dsimp only at h1 h2 h3 h4 h5 h6
  subst h1
  subst h2
  subst h3
  subst h4
  subst h5
  subst h6
  by_cases hp : 1 < p <;>
    constructor <;>
      simp [header, cellDraw, setFont, setTextColor, lnBy, setX, eqButFC, hp]

lemma addPage_congr (s₁ s₂ : PState) (hr : eqButFC s₁ s₂) :
    (addPage s₁).2 = (addPage s₂).2 ∧ eqButFC (addPage s₁).1 (addPage s₂).1 := by
  obtain ⟨p, x, y, f, tc, fc1, lh⟩ := s₁
  obtain ⟨p2, x2, y2, f2, tc2, fc2, lh2⟩ := s₂
  obtain ⟨h1, h2, h3, h4, h5, h6⟩ := hr
  dsimp only at h1 h2 h3 h4 h5 h6
  subst h1
  subst h2
  subst h3
  subst h4
  subst h5
  subst h6
  by_cases hp : 0 < p
  · have hpp : 1 < p + 1 := by omega
    by_cases hf : f.family = "" <;>
      constructor <;>
        simp [addPage, footer, header, cellDraw, setY, setFont, setTextColor,
          setX, lnBy, eqButFC, hp, hpp, hf]
  · have hp0 : p = 0 := by omega
    subst hp0
    by_cases hf : f.family = "" <;>
      constructor <;>
        simp [addPage, footer, header, cellDraw, setY, setFont, setTextColor,
          setX, lnBy, eqButFC, hf]

lemma cell_congr (w h : ℚ) (t : String) (b : Bool) (l : ℕ) (a : String)
    (s₁ s₂ : PState) (hr : eqButFC s₁ s₂) :
    (cell s₁ w h t b l a false).2 = (cell s₂ w h t b l a false).2
      ∧ eqButFC (cell s₁ w h t b l a false).1 (cell s₂ w h t b l a false).1 := by
  obtain ⟨p, x, y, f, tc, fc1, lh⟩ := s₁
  obtain ⟨p2, x2, y2, f2, tc2, fc2, lh2⟩ := s₂
  obtain ⟨h1, h2, h3, h4, h5, h6⟩ := hr
  dsimp only at h1 h2 h3 h4 h5 h6
  subst h1
  subst h2
  subst h3
  subst h4
  subst h5
  subst h6
  unfold cell
  dsimp only
  by_cases hb : breakNeeded ⟨p, x, y, f, tc, fc1, lh⟩ h = true
  · have hb2 : breakNeeded ⟨p, x, y, f, tc, fc2, lh⟩ h = true := hb
    rw [if_pos hb, if_pos hb2]
    dsimp only
    obtain ⟨hea, hra⟩ := addPage_congr ⟨p, x, y, f, tc, fc1, lh⟩ ⟨p, x, y, f, tc, fc2, lh⟩
      ⟨rfl, rfl, rfl, rfl, rfl, rfl⟩
    obtain ⟨hpa, hxa, hya, hfa, htca, hlha⟩ := hra
    obtain ⟨hed, hrd⟩ := cellDraw_congr w h t b l a
      { (addPage ⟨p, x, y, f, tc, fc1, lh⟩).1 with x := x }
      { (addPage ⟨p, x, y, f, tc, fc2, lh⟩).1 with x := x }
      ⟨hpa, rfl, hya, hfa, htca, hlha⟩
    exact ⟨by rw [hea, hed], hrd⟩
  · have hb2 : ¬breakNeeded ⟨p, x, y, f, tc, fc2, lh⟩ h = true := hb
    rw [if_neg hb, if_neg hb2]
    dsimp only
    exact cellDraw_congr w h t b l a _ _ ⟨rfl, rfl, rfl, rfl, rfl, rfl⟩

lemma multiCellLines_congr (w h : ℚ) (b : Bool) (a : String) (ls : List String) :
    ∀ s₁ s₂ : PState, eqButFC s₁ s₂ →
      (multiCellLines w h b a false s₁ ls).2 = (multiCellLines w h b a false s₂ ls).2
        ∧ eqButFC (multiCellLines w h b a false s₁ ls).1
            (multiCellLines w h b a false s₂ ls).1 := by
  induction ls with
  | nil =>
    intro s₁ s₂ hr
    exact ⟨rfl, hr⟩
  | cons l ls ih =>
    intro s₁ s₂ hr
    obtain ⟨he, hr1⟩ := cell_congr w h l b 2 a s₁ s₂ hr
    obtain ⟨he2, hr2⟩ := ih _ _ hr1
    refine ⟨?_, hr2⟩
    dsimp only [multiCellLines]
    rw [he, he2]

lemma multiCell_congr (wrap : Font → ℚ → String → List String) (w h : ℚ)
    (txt : String) (b : Bool) (a : String) (s₁ s₂ : PState) (hr : eqButFC s₁ s₂) :
    (multiCell wrap s₁ w h txt b a false).2 = (multiCell wrap s₂ w h txt b a false).2
      ∧ eqButFC (multiCell wrap s₁ w h txt b a false).1
          (multiCell wrap s₂ w h txt b a false).1 := by
  have h2 := hr.2.1
  have h4 := hr.2.2.2.1
  unfold multiCell
  dsimp only
  rw [← h2, ← h4]
  obtain ⟨he, hrr⟩ := multiCellLines_congr (if w = 0 then pageW - rMargin - s₁.x else w)
    h b a (wrap s₁.font (if w = 0 then pageW - rMargin - s₁.x else w) txt) s₁ s₂ hr
  obtain ⟨a1, a2, a3, a4, a5, a6⟩ := hrr
  exact ⟨he, a1, rfl, a3, a4, a5, a6⟩

lemma prep_eq_tcfill (s₁ s₂ : PState) (hss : sansStyle s₁ = sansStyle s₂)
    (fam sty : String) (sz : ℚ) (rf gf bf r g b : ℕ) :
    setTextColor (setFillColor (setFont s₁ fam sty sz) rf gf bf) r g b
      = setTextColor (setFillColor (setFont s₂ fam sty sz) rf gf bf) r g b := by
  obtain ⟨p, x, y, f, tc, fc1, lh⟩ := s₁
  obtain ⟨p2, x2, y2, f2, tc2, fc2, lh2⟩ := s₂
  simp only [sansStyle, Prod.mk.injEq] at hss
  obtain ⟨q1, q2, q3, q4⟩ := hss
  subst q1
  subst q2
  subst q3
  subst q4
  rfl

lemma prep_eq_filltc (s₁ s₂ : PState) (hss : sansStyle s₁ = sansStyle s₂)
    (fam sty : String) (sz : ℚ) (r g b rf gf bf : ℕ) :
    setFillColor (setTextColor (setFont s₁ fam sty sz) r g b) rf gf bf
      = setFillColor (setTextColor (setFont s₂ fam sty sz) r g b) rf gf bf := by
  obtain ⟨p, x, y, f, tc, fc1, lh⟩ := s₁
  obtain ⟨p2, x2, y2, f2, tc2, fc2, lh2⟩ := s₂
  simp only [sansStyle, Prod.mk.injEq] at hss
  obtain ⟨q1, q2, q3, q4⟩ := hss
  subst q1
  subst q2
  subst q3
  subst q4
  rfl

lemma eqButFC_prep (s₁ s₂ : PState) (hss : sansStyle s₁ = sansStyle s₂)
    (fam sty : String) (sz : ℚ) (r g b : ℕ) :
    eqButFC (setTextColor (setFont s₁ fam sty sz) r g b)
      (setTextColor (setFont s₂ fam sty sz) r g b) := by
  obtain ⟨p, x, y, f, tc, fc1, lh⟩ := s₁
  obtain ⟨p2, x2, y2, f2, tc2, fc2, lh2⟩ := s₂
  simp only [sansStyle, Prod.mk.injEq] at hss
  obtain ⟨q1, q2, q3, q4⟩ := hss
  subst q1
  subst q2
  subst q3
  subst q4
  exact ⟨rfl, rfl, rfl, rfl, rfl, rfl⟩

/-- Claim C10: every block renderer sets its font, text color (and fill color
where a fill is drawn) before placing content, so two runs of the same
renderer call from states that differ only in the prior font/style/size/text
color/fill color (same page, cursor and lasth) place identical events at
identical positions and leave identical page/cursor state; the renderers that
also set the fill color (code block and the table renderers) even produce
entirely identical results. -/
theorem c10_renderer_determinism (wrap : Font → ℚ → String → List String)
    (s₁ s₂ : PState) (hss : sansStyle s₁ = sansStyle s₂)
    (t txt code : String) (cols : List String) (widths : List ℚ) (f : Bool) :
    ((chapterTitle s₁ t).2 = (chapterTitle s₂ t).2
        ∧ sansStyle (chapterTitle s₁ t).1 = sansStyle (chapterTitle s₂ t).1)
      ∧ ((sectionTitle s₁ t).2 = (sectionTitle s₂ t).2
        ∧ sansStyle (sectionTitle s₁ t).1 = sansStyle (sectionTitle s₂ t).1)
      ∧ ((subsectionTitle s₁ t).2 = (subsectionTitle s₂ t).2
        ∧ sansStyle (subsectionTitle s₁ t).1 = sansStyle (subsectionTitle s₂ t).1)
      ∧ ((bodyText wrap s₁ txt).2 = (bodyText wrap s₂ txt).2
        ∧ sansStyle (bodyText wrap s₁ txt).1 = sansStyle (bodyText wrap s₂ txt).1)
      ∧ ((bulletPoint wrap s₁ txt).2 = (bulletPoint wrap s₂ txt).2
        ∧ sansStyle (bulletPoint wrap s₁ txt).1 = sansStyle (bulletPoint wrap s₂ txt).1)
      ∧ codeBlock s₁ code = codeBlock s₂ code
      ∧ tableHeader s₁ cols widths = tableHeader s₂ cols widths
      ∧ tableRow s₁ cols widths f = tableRow s₂ cols widths f := by
  refine ⟨?_, ?_, ?_, ?_, ?_, ?_, ?_, ?_⟩
  · obtain ⟨he, hr⟩ := cell_congr 0 12 t false 1 "" _ _
      (eqButFC_prep s₁ s₂ hss "Helvetica" "B" 18 0 100 180)
    exact ⟨he, sansStyle_of_eqButFC _ _ (eqButFC_lnBy _ _ _ hr)⟩
  · obtain ⟨he, hr⟩ := cell_congr 0 10 t false 1 "" _ _
      (eqButFC_prep s₁ s₂ hss "Helvetica" "B" 14 50 50 50)
    exact ⟨he, sansStyle_of_eqButFC _ _ (eqButFC_lnBy _ _ _ hr)⟩
  · obtain ⟨he, hr⟩ := cell_congr 0 8 t false 1 "" _ _
      (eqButFC_prep s₁ s₂ hss "Helvetica" "B" 11 80 80 80)
    exact ⟨he, sansStyle_of_eqButFC _ _ (eqButFC_lnBy _ _ _ hr)⟩
  · have hpre := eqButFC_prep s₁ s₂ hss "Helvetica" "" 10 0 0 0
    obtain ⟨b1, b2, b3, b4, b5, b6⟩ := hpre
    obtain ⟨he, hr⟩ := multiCell_congr wrap 0 5 txt false "J" _ _
      (⟨b1, rfl, b3, b4, b5, b6⟩ :
        eqButFC (setX (setTextColor (setFont s₁ "Helvetica" "" 10) 0 0 0) 10)
          (setX (setTextColor (setFont s₂ "Helvetica" "" 10) 0 0 0) 10))
    exact ⟨he, sansStyle_of_eqButFC _ _ (eqButFC_lnBy _ _ _ hr)⟩
  · have hpre := eqButFC_prep s₁ s₂ hss "Helvetica" "" 10 0 0 0
    obtain ⟨b1, b2, b3, b4, b5, b6⟩ := hpre
    obtain ⟨he, hr⟩ := multiCell_congr wrap 0 5 ("  - " ++ txt) false "J" _ _
      (⟨b1, rfl, b3, b4, b5, b6⟩ :
        eqButFC (setX (setTextColor (setFont s₁ "Helvetica" "" 10) 0 0 0) 10)
          (setX (setTextColor (setFont s₂ "Helvetica" "" 10) 0 0 0) 10))
    exact ⟨he, sansStyle_of_eqButFC _ _ hr⟩
  · simp only [codeBlock]
    rw [prep_eq_tcfill s₁ s₂ hss "Courier" "" 9 240 240 240 0 0 0]
  · simp only [tableHeader]
    rw [prep_eq_tcfill s₁ s₂ hss "Helvetica" "B" 9 0 100 180 255 255 255]
  · simp only [tableRow]
    rw [prep_eq_filltc s₁ s₂ hss "Courier" "" 8 0 0 0 248 248 248,
      prep_eq_filltc s₁ s₂ hss "Courier" "" 8 0 0 0 255 255 255]

/-- Witness for C10: sTab and sTabAlt share page/cursor but have different
font, text color and fill color; the renderers behave identically from both. -/
theorem c10_witness :
    (chapterTitle sTab "T").2 = (chapterTitle sTabAlt "T").2
      ∧ codeBlock sTab "x" = codeBlock sTabAlt "x"
      ∧ tableRow sTab ["a"] [50] true = tableRow sTabAlt ["a"] [50] true := by
  have h := c10_renderer_determinism oneLineWrap sTab sTabAlt rfl "T" "b" "x" ["a"] [50] true
  exact ⟨h.1.1, h.2.2.2.2.2.1, h.2.2.2.2.2.2.2⟩

end Basic10
